import Mathlib

/-!
Verification development for the PDFTranslate2md resilience layer.

Each Python module that the claims touch is shallowly embedded as Lean
definitions:

* `src/src/rate_limiter.py`      → namespace `RateLimiter`
* `src/src/retry_manager.py`     → namespace `RetryManager`
* `src/src/providers/…` and
  `src/src/translator_service.py` → namespace `Providers`
* `src/src/translator.py` /
  `translator_service.py` header post-processing → namespace `Headers`
* `src/src/unicode_handler.py`   → namespace `UnicodeHandler`

Wall-clock time is passed explicitly as a rational `now`; a blocking
`time.sleep(d)` is modelled by returning the slept duration `d` alongside the
new state.  Python exceptions become explicit outcome values (`Except` or a
small inductive of raise-kinds).  Strings that only ever get compared to
literals stay `String`; text that is processed character by character is
modelled as `List Char` (and as `List Nat` of code points for the unicode
handler, where Python strings may hold lone surrogate code points that
`Char` cannot represent).
-/

namespace PDFTranslate

/-! ## Rate limiter state (src/src/rate_limiter.py)

`RateLimiter._rate_limit_status` maps a provider name to the dictionary
`{"hit": bool, "last_hit_time": float, "waiting_period": float}`.  Times and
durations are modelled as rationals. -/

structure RLState where
  hit : Bool
  lastHitTime : ℚ
  waitingPeriod : ℚ
deriving Repr, DecidableEq

namespace RateLimiter

/-- The default entry `{"hit": False, "last_hit_time": 0, "waiting_period": 0}`
that `rate_limiter.py` installs for a provider on first reference. -/
def defaultRLState : RLState := ⟨false, 0, 0⟩

/-- The tracked-provider map: `none` means the provider key is absent from the
`_rate_limit_status` dictionary. -/
abbrev RLMap := String → Option RLState

/-- `RateLimiter.__init__`: the four pre-registered providers. -/
def initialRateLimiter : RLMap := fun p =>
  if p = "gemini" ∨ p = "openai" ∨ p = "anthropic" ∨ p = "claude" then
    some defaultRLState
  else
    none

/-- Dictionary update `self._rate_limit_status[provider] = s`. -/
def rlUpdate (m : RLMap) (p : String) (s : RLState) : RLMap :=
  fun q => if q = p then some s else m q

/-- `RateLimiter.get_status`: materializes the default entry for an unknown
provider, and returns a copy of the entry.  Result: (new map, returned copy). -/
def get_status (m : RLMap) (p : String) : RLMap × RLState :=
  match m p with
  | none => (rlUpdate m p defaultRLState, defaultRLState)
  | some s => (m, s)

/-- `RateLimiter.set_rate_limit_hit` at wall-clock time `now`
(`time.time()`): installs the default entry if the provider is untracked,
then sets `hit = True` and `last_hit_time = now`.
Note that `waiting_period` is left untouched. -/
def set_rate_limit_hit (m : RLMap) (p : String) (now : ℚ) : RLMap :=
  let cur := (m p).getD defaultRLState
  rlUpdate m p { cur with hit := true, lastHitTime := now }

/-- `RateLimiter.set_waiting_period`. -/
def set_waiting_period (m : RLMap) (p : String) (w : ℚ) : RLMap :=
  let cur := (m p).getD defaultRLState
  rlUpdate m p { cur with waitingPeriod := w }

/-- `RateLimiter.reset_rate_limit`: for an untracked provider installs the
default entry; otherwise clears `hit` and `waiting_period`
(`last_hit_time` is kept). -/
def reset_rate_limit (m : RLMap) (p : String) : RLMap :=
  match m p with
  | none => rlUpdate m p defaultRLState
  | some s => rlUpdate m p { s with hit := false, waitingPeriod := 0 }

/-- `RateLimiter.check_and_wait_if_needed` at wall-clock time `now`.
Result: (new map, returned bool, seconds slept in `time.sleep`).

Mirrors the source structure: untracked provider → materialize default,
return `False`; `hit == False` → return `False`; `elapsed < waiting_period`
→ sleep the remainder (if positive) and return `True` (the `hit` flag is
*not* cleared); otherwise reset the flag and return `False`.  The dead
fall-through `return False` at the end of the Python function corresponds to
the inner `remaining ≤ 0` branch. -/
def check_and_wait_if_needed (m : RLMap) (p : String) (now : ℚ) :
    RLMap × Bool × ℚ :=
  match m p with
  | none => (rlUpdate m p defaultRLState, false, 0)
  | some status =>
    if status.hit = false then
      (m, false, 0)
    else
      let elapsed := now - status.lastHitTime
      let waitingPeriod := status.waitingPeriod
      if elapsed < waitingPeriod then
        let remaining := waitingPeriod - elapsed
        if 0 < remaining then
          (m, true, remaining)
        else
          (m, false, 0)
      else
        (rlUpdate m p { status with hit := false }, false, 0)

/-- `RateLimiter.calculate_dynamic_wait_time`: the per-provider factor
dictionary `provider_factors` with `.get(provider, 1.0)`. -/
def provider_factors : List (String × ℚ) :=
  [("gemini", 1), ("openai", 6/5), ("anthropic", 1), ("claude", 1)]

/-- `RateLimiter.calculate_dynamic_wait_time(provider, retry_count, base_wait)`:
`wait = base_wait * factor + retry_count * retry_count * 10 * factor`,
capped at `max_wait = 300`. -/
def calculate_dynamic_wait_time (p : String) (retryCount : ℕ) (baseWait : ℚ) : ℚ :=
  let factor := ((provider_factors.lookup p).getD 1)
  let waitTime := baseWait * factor + ((retryCount : ℚ) * (retryCount : ℚ) * 10 * factor)
  let maxWait : ℚ := 300
  min waitTime maxWait

/-- `RateLimiter.clear_all_limits`: resets every tracked provider to the
default entry. -/
def clear_all_limits (m : RLMap) : RLMap :=
  fun q => match m q with
    | none => none
    | some _ => some defaultRLState

end RateLimiter

/-! ## Retry manager (src/src/retry_manager.py) -/

namespace RetryManager

/-- The attributes of a caught Python exception that
`RetryManager.handle_http_error` / `handle_resource_exhausted_error` inspect.

* `classStatusCode` — the `status_code` attribute carried by the repository's
  own `HTTPStatusError` class (`none` for other exception classes);
* `respStatusCode` — `e.response.status_code` when the exception carries a
  `response` object exposing `status_code` (`none` when either attribute is
  absent, e.g. for the repository's `HTTPStatusError`);
* `respRetryDelay` — the positive `retry_delay.seconds` value parsed from
  `e.response.json()` when present (`none` when absent, unparsable or `≤ 0`);
* `message` — `str(e)`. -/
structure CaughtError where
  classStatusCode : Option ℕ
  respStatusCode : Option ℕ
  respRetryDelay : Option ℕ
  message : String
deriving Repr, DecidableEq

/-- What a handler raised on exit. -/
inductive RaiseKind where
  /-- `raise HTTPStatusError(code, msg)` with the repository's own class. -/
  | httpStatusError (code : ℕ)
  /-- `raise e`: the caught exception is re-raised unchanged. -/
  | reraised
deriving Repr, DecidableEq

/-- Exception classes as classified by the `RETRY_EXCEPTIONS` tuple of
`retry_manager.py` / `translator.py`. -/
inductive ExcClass where
  | connectionError
  | timeoutError
  | requestException
  | httpException
  | urlError
  | httpStatusError
  | apiError
  | unicodeEncodeError
  /-- any other exception (the tuple ends with the catch-all `Exception`). -/
  | otherException
deriving Repr, DecidableEq

/-- Membership in the `RETRY_EXCEPTIONS` tuple.  The tuple closes with the
catch-all `Exception`, so every exception class is retryable. -/
def isRetryException : ExcClass → Bool
  | .connectionError => true
  | .timeoutError => true
  | .requestException => true
  | .httpException => true
  | .urlError => true
  | .httpStatusError => true
  | .apiError => true
  | .unicodeEncodeError => true
  | .otherException => true

/-- The wait computed in `handle_http_error`'s 429 branch: vendor
`retry_delay + 10` margin when present, otherwise the dynamic
`60 + retry_count * retry_count * 10`. -/
def http429WaitTime (e : CaughtError) (retryCount : ℕ) : ℚ :=
  match e.respRetryDelay with
  | some d => (d : ℚ) + 10
  | none => 60 + ((retryCount : ℚ) * (retryCount : ℚ) * 10)

/-- The wait computed in `handle_resource_exhausted_error`: vendor
`retry_delay + 5` margin when present, otherwise the dynamic
`60 + retry_count * 20`. -/
def resourceExhaustedWaitTime (e : CaughtError) (retryCount : ℕ) : ℚ :=
  match e.respRetryDelay with
  | some d => (d : ℚ) + 5
  | none => 60 + ((retryCount : ℚ) * 20)

/-- `RetryManager.handle_http_error(e, llm_provider, retry_count, rate_limiter)`
as called from `TranslatorService._call_provider_with_retry` (which always
passes `self.rate_limiter`).  Wall-clock time `now` is the value of
`time.time()` inside `set_rate_limit_hit`.

Result: (new rate-limiter map, seconds slept in `time.sleep`, raise kind).
The status code is read from `e.response.status_code` and defaults to `0`
when the exception exposes no such attribute. -/
def handle_http_error (e : CaughtError) (provider : String) (retryCount : ℕ)
    (m : RateLimiter.RLMap) (now : ℚ) : RateLimiter.RLMap × ℚ × RaiseKind :=
  let statusCode := e.respStatusCode.getD 0
  if statusCode = 503 ∨ statusCode = 504 then
    (m, 0, .httpStatusError statusCode)
  else if statusCode = 429 then
    let m1 := RateLimiter.set_rate_limit_hit m provider now
    let waitTime := http429WaitTime e retryCount
    let m2 := RateLimiter.set_waiting_period m1 provider waitTime
    (m2, waitTime, .httpStatusError 429)
  else
    (m, 0, .reraised)

/-- `RetryManager.handle_resource_exhausted_error(e, llm_provider, retry_count,
rate_limiter)` as called from `TranslatorService._call_provider_with_retry`
(rate limiter always present): marks the provider hit, records the waiting
period, sleeps it, and raises `HTTPStatusError(429, …)`. -/
def handle_resource_exhausted_error (e : CaughtError) (provider : String)
    (retryCount : ℕ) (m : RateLimiter.RLMap) (now : ℚ) :
    RateLimiter.RLMap × ℚ × RaiseKind :=
  let m1 := RateLimiter.set_rate_limit_hit m provider now
  let waitTime := resourceExhaustedWaitTime e retryCount
  let m2 := RateLimiter.set_waiting_period m1 provider waitTime
  (m2, waitTime, .httpStatusError 429)

/-- The type name and message of a caught exception, as used by the
page-level exception handlers to format the degraded error body. -/
structure ExcInfo where
  typeName : String
  message : String
deriving Repr, DecidableEq

/-- `MAX_RETRIES` of `translator.py` (and `RetryManager(max_retries=5, …)` in
`translator_service.py`). -/
def MAX_RETRIES : ℕ := 5

/-- The degraded error body returned on retry exhaustion, shared verbatim by
`translator.translate_text` and `RetryManager.handle_retry_exception`:
`"翻訳エラーが発生しました: 翻訳エラー (最大リトライ回数{max}回に達しました): {type} - {msg}"`. -/
def exhaustionErrorBody (maxRetries : ℕ) (e : ExcInfo) : String :=
  "翻訳エラーが発生しました: 翻訳エラー (最大リトライ回数" ++ toString maxRetries ++
    "回に達しました): " ++ e.typeName ++ " - " ++ e.message

/-- `RetryManager.handle_retry_exception(e, page_info, remaining_retries)`:
re-raises while retries remain (`.error`), otherwise returns the degraded
`(error body, [])` pair (`.ok`). -/
def handle_retry_exception (maxRetries : ℕ) (e : ExcInfo) (remaining : ℤ) :
    Except ExcInfo (String × List String) :=
  if 0 < remaining then
    .error e
  else
    .ok (exhaustionErrorBody maxRetries e, [])

/-- The `except RETRY_EXCEPTIONS` branch of `translator.translate_text`
(translator.py lines 675–705): computes `remaining = MAX_RETRIES - retry_count`,
re-raises to the tenacity decorator while retries remain, and on exhaustion
returns the degraded `(error body, [])` pair instead of raising. -/
def translate_text_except_branch (e : ExcInfo) (retryCount : ℕ) :
    Except ExcInfo (String × List String) :=
  let remaining : ℤ := (MAX_RETRIES : ℤ) - (retryCount : ℤ)
  if 0 < remaining then
    .error e
  else
    .ok (exhaustionErrorBody MAX_RETRIES e, [])

/-- The `except RETRY_EXCEPTIONS` branch of `TranslatorService.translate_page`
(translator_service.py lines 453–459): delegates to
`handle_retry_exception` with `remaining = max_retries - retry_count`. -/
def translate_page_except_branch (maxRetries : ℕ) (e : ExcInfo)
    (retryCount : ℕ) : Except ExcInfo (String × List String) :=
  handle_retry_exception maxRetries e ((maxRetries : ℤ) - (retryCount : ℤ))

end RetryManager

/-! ## Provider construction (src/src/providers, src/src/translator_service.py) -/

namespace Providers

/-- The exception classes that can escape from the construction paths. -/
inductive InitError where
  /-- `ValidationError` (subclass of `APIError`, base_provider.py). -/
  | validationError
  /-- plain builtin `ValueError`. -/
  | valueError
  /-- `ImportError`. -/
  | importError
deriving Repr, DecidableEq

/-- Whether the raised class belongs to the `APIError` taxonomy of
`base_provider.py` (`ValidationError ⊂ APIError`; the builtins `ValueError`
and `ImportError` do not). -/
def isAPIError : InitError → Bool
  | .validationError => true
  | .valueError => false
  | .importError => false

/-- The constructed provider instance state that `BaseProvider.__init__`
establishes. -/
structure ProviderInst where
  apiKey : String
  modelName : String
  timeout : ℕ
deriving Repr, DecidableEq

/-- `BaseProvider.__init__(api_key, model_name, timeout)`: an absent / empty
key (`if not api_key`, the empty string being falsy) raises the builtin
`ValueError("APIキーが設定されていません")`; otherwise the instance is set up with
`model_name or get_default_model()`. -/
def base_provider_init (apiKey : String) (modelName : Option String)
    (defaultModel : String) (timeout : ℕ) : Except InitError ProviderInst :=
  if apiKey = "" then
    .error .valueError
  else
    .ok ⟨apiKey, (modelName.getD defaultModel), timeout⟩

/-- ASCII lowercasing of one character, as `str.lower()` does for the ASCII
provider names the system uses. -/
def pyLowerChar (c : Char) : Char :=
  if 'A' ≤ c ∧ c ≤ 'Z' then Char.ofNat (c.toNat + 32) else c

/-- `s.lower()` (ASCII fragment). -/
def pyLower (s : String) : String := String.mk (s.data.map pyLowerChar)

/-- Whitespace stripped by `str.strip()` (ASCII fragment). -/
def pySpace (c : Char) : Bool :=
  c == ' ' || c == '\t' || c == '\n' || c == '\r' || c == '\x0b' || c == '\x0c'

/-- `s.strip()`: drop leading and trailing whitespace. -/
def pyStrip (s : String) : String :=
  String.mk (((s.data.dropWhile pySpace).reverse.dropWhile pySpace).reverse)

/-- `provider_name.lower().strip()`. -/
def canonicalName (s : String) : String := pyStrip (pyLower s)

/-- `SUPPORTED_PROVIDERS` names with their `default_model`
(providers/__init__.py). -/
def supported_providers : List (String × String) :=
  [("gemini", "gemini-2.5-flash-preview-05-20"),
   ("openai", "gpt-4.1"),
   ("claude", "claude-3-7-sonnet"),
   ("anthropic", "claude-3-7-sonnet")]

/-- `validate_provider_name` (providers/__init__.py): falsy name → `False`;
else membership of `provider_name.lower().strip()` in `SUPPORTED_PROVIDERS`. -/
def validate_provider_name (providerName : String) : Bool :=
  if providerName = "" then
    false
  else
    (supported_providers.lookup (canonicalName providerName)).isSome

/-- `create_provider(provider_name, api_key, model_name, timeout)`
(providers/__init__.py): empty name → `ValueError`; empty key →
`ValidationError`; unsupported name → `ValueError`; otherwise the vendor
class is constructed (all vendor `__init__`s delegate to
`BaseProvider.__init__`), and any exception escaping that construction other
than `ImportError` is wrapped into a `ValidationError`. -/
def create_provider (providerName : String) (apiKey : String)
    (modelName : Option String) (timeout : ℕ) : Except InitError ProviderInst :=
  if providerName = "" then
    .error .valueError
  else if apiKey = "" then
    .error .validationError
  else
    let pn := canonicalName providerName
    match supported_providers.lookup pn with
    | none => .error .valueError
    | some defaultModel =>
      match base_provider_init apiKey (some (modelName.getD defaultModel)) defaultModel timeout with
      | .error .importError => .error .importError
      | .error _ => .error .validationError
      | .ok inst => .ok inst

/-- The construction-relevant state of a `TranslatorService`. -/
structure ServiceInst where
  providerName : String
  modelName : String
  provider : ProviderInst
deriving Repr, DecidableEq

/-- `TranslatorService.__init__(provider_name, model_name, timeout)`
(translator_service.py lines 48–95).  `envKey` is the result of the
credential lookup `os.getenv(...)` for the provider (`none` = variable
unset); Python treats both `None` and `""` as absent (`if not self.api_key`).
Order of checks follows the source: provider-name validation
(`ValueError`), then credential presence (`ValidationError`), then provider
construction through the factory. -/
def translator_service_init (providerName : String) (envKey : Option String)
    (modelName : Option String) (timeout : ℕ) : Except InitError ServiceInst :=
  let pn := canonicalName providerName
  if validate_provider_name pn = false then
    .error .valueError
  else
    let apiKey := envKey.getD ""
    if apiKey = "" then
      .error .validationError
    else
      let model := modelName.getD ((supported_providers.lookup pn).getD "")
      match create_provider pn apiKey (some model) timeout with
      | .error err => .error err
      | .ok inst => .ok ⟨pn, model, inst⟩

end Providers

/-! ## Markdown header post-processing
(`clean_markdown_headers` in src/src/translator.py lines 224–272, duplicated
verbatim in `TranslatorService.clean_markdown_headers`,
src/src/translator_service.py lines 151–200).

A page of text is a `List Char`; `'\n'` separates lines exactly as
`text.split('\n')` / `'\n'.join(...)` do in the source. -/

namespace Headers

/-- Python's whitespace class as used by `str.lstrip()` and the regex `\s`
(restricted to the ASCII range, which is all the claims exercise). -/
def pyIsSpace (c : Char) : Bool :=
  c == ' ' || c == '\t' || c == '\n' || c == '\r' || c == '\x0b' || c == '\x0c'

/-- `text.split('\n')`. -/
def splitLines : List Char → List (List Char)
  | [] => [[]]
  | c :: cs =>
    if c = '\n' then
      [] :: splitLines cs
    else
      match splitLines cs with
      | [] => [[c]]
      | a :: rest => (c :: a) :: rest

/-- `'\n'.join(lines)`. -/
def joinLines : List (List Char) → List Char
  | [] => []
  | [a] => a
  | a :: rest => a ++ '\n' :: joinLines rest

/-- The `(\.\d+)*\s` tail of the section regex `^(\d+(\.\d+)*)\s`
(maximal munch; since digits and dots are not whitespace, regex backtracking
can never succeed where maximal munch fails).  Returns the characters the
starred group contributed to match group 1, or `none` when the overall regex
fails.  Structural recursion on a fuel bounded by the list length (each step
consumes at least two characters), so the function reduces definitionally. -/
def labelExtAux : ℕ → List Char → Option (List Char)
  | 0, _ => none
  | _ + 1, [] => none
  | fuel + 1, c :: rest =>
    if c = '.' then
      if rest.takeWhile Char.isDigit = [] then
        none
      else
        (labelExtAux fuel (rest.dropWhile Char.isDigit)).map
          (fun e => '.' :: (rest.takeWhile Char.isDigit ++ e))
    else if pyIsSpace c then some [] else none

/-- See `labelExtAux`. -/
def labelExt (l : List Char) : Option (List Char) :=
  labelExtAux (l.length + 1) l

/-- `re.match(r'^(\d+(\.\d+)*)\s', header_text)`: `some label` is the matched
group 1 (`match.group(1)`), `none` when the regex does not match. -/
def sectionLabel (l : List Char) : Option (List Char) :=
  if l.takeWhile Char.isDigit = [] then
    none
  else
    (labelExt (l.dropWhile Char.isDigit)).map
      (fun e => l.takeWhile Char.isDigit ++ e)

/-- `header_text = re.sub(r'^#+\s*', '', trimmed_line)`: strip the leading
run of `'#'` markers and the whitespace that follows them. -/
def headerTextOf (trimmed : List Char) : List Char :=
  (trimmed.dropWhile (fun c => c == '#')).dropWhile pyIsSpace

/-- The per-line body of the `for line in lines` loop of
`clean_markdown_headers`:

* `trimmed_line = line.lstrip()`;
* only lines whose trimmed form starts with `'#'` are touched;
* if the remaining header text starts with a numeric dotted label, the line
  is rebuilt as `'#' * (label.count('.') + 1) + ' ' + header_text`;
* otherwise the original line is kept. -/
def processLine (line : List Char) : List Char :=
  let trimmed := line.dropWhile pyIsSpace
  match trimmed with
  | [] => line
  | c :: _ =>
    if c = '#' then
      match sectionLabel (headerTextOf trimmed) with
      | some label =>
        List.replicate (label.count '.' + 1) '#' ++ (' ' :: headerTextOf trimmed)
      | none => line
    else
      line

/-- `clean_markdown_headers(text)`: split on newlines, process each line,
rejoin with newlines. -/
def clean_markdown_headers (text : List Char) : List Char :=
  joinLines ((splitLines text).map processLine)

end Headers

/-! ## Unicode handler (src/src/unicode_handler.py)

A Python `str` is a sequence of code points that may include lone surrogate
code points (U+D800–U+DFFF); these are exactly the code points on which
`'…'.encode('utf-8', errors='strict')` raises `UnicodeEncodeError`, and
exactly what the regex `[\ud800-\udfff]` of `SURROGATE_PAIR_PATTERN`
matches.  Text is therefore modelled as `List ℕ` of code points.

`unicodedata.normalize('NFC', ·)` / `('NFD', ·)` live in the CPython
standard library, outside this repository; the development is parameterized
over arbitrary functions `nfc nfd : List ℕ → List ℕ`, and theorems assume
only the standard Unicode facts they need (NFC is idempotent and
normalization never manufactures surrogate code points). -/

namespace UnicodeHandler

/-- Membership in the surrogate range U+D800–U+DFFF. -/
def isSurrogate (c : ℕ) : Bool := 0xD800 ≤ c && c ≤ 0xDFFF

/-- `detect_surrogate_pairs(text)`: `SURROGATE_PAIR_PATTERN.search(text)`. -/
def detect_surrogate_pairs (s : List ℕ) : Bool := s.any isSurrogate

/-- `text.encode('utf-8', errors='strict')` succeeds — in CPython, strict
UTF-8 encoding of a `str` fails exactly when a surrogate code point is
present. -/
def utf8Encodable (s : List ℕ) : Bool := !(s.any isSurrogate)

/-- `MATH_SYMBOL_MAPPING` (unicode_handler.py lines 13–120): bold capitals
U+1D400–U+1D419 → A–Z, bold smalls U+1D41A–U+1D433 → a–z, italic capitals
U+1D434–U+1D44D → A–Z, italic smalls U+1D44E–U+1D454 → a–g and
U+1D456–U+1D467 → i–z (U+1D455 is reserved and absent from the table). -/
def mathSymbolTable : List (ℕ × ℕ) :=
  ((List.range 26).map (fun i => (0x1D400 + i, 65 + i))) ++
  ((List.range 26).map (fun i => (0x1D41A + i, 97 + i))) ++
  ((List.range 26).map (fun i => (0x1D434 + i, 65 + i))) ++
  ((List.range 7).map (fun i => (0x1D44E + i, 97 + i))) ++
  ((List.range 18).map (fun i => (0x1D456 + i, 105 + i)))

/-- Does the lookup table map this code point? -/
def mathSymbolKey (c : ℕ) : Bool := (mathSymbolTable.lookup c).isSome

/-- The `for unicode_char, replacement in MATH_SYMBOL_MAPPING.items()` loop:
each entry replaces every occurrence of its key by its (single-character)
value, applied sequentially in table order. -/
def applyMathMapping (s : List ℕ) : List ℕ :=
  mathSymbolTable.foldl
    (fun t kv => t.map (fun c => if c = kv.1 then kv.2 else c)) s

/-- `get_surrogate_positions(text)`: the indices at which the (one-character)
surrogate regex matches. -/
def surrogatePositions (s : List ℕ) : List ℕ :=
  (List.range s.length).filter (fun i => isSurrogate (s.getD i 0))

/-- The aggressive branch of the removal loop: the positions are computed
once, then processed in `reversed(positions)` order, each deleting the
character at its index (`text[:pos_start] + text[pos_end:]`). -/
def eraseLoop (s : List ℕ) : List ℕ :=
  (surrogatePositions s).reverse.foldl (fun t i => t.eraseIdx i) s

/-- The ASCII code point of the conservative replacement character `'?'`. -/
def qmark : ℕ := 63

/-- The conservative branch of the removal loop: each position is replaced by
`'?'` (`text[:pos_start] + replacement + text[pos_end:]`). -/
def replaceLoop (s : List ℕ) : List ℕ :=
  (surrogatePositions s).reverse.foldl (fun t i => t.set i qmark) s

/-- `text.encode('utf-8', errors='replace').decode('utf-8')`: every
unencodable (surrogate) code point becomes a replacement byte `'?'`. -/
def lossyEncode (s : List ℕ) : List ℕ :=
  s.map (fun c => if isSurrogate c then qmark else c)

/-- The `if detect_surrogate_pairs(text): …` stage of the slow path:
delete (aggressive) or replace (conservative) every remaining surrogate
match; skipped when no surrogate remains. -/
def removalStage (aggressive : Bool) (t2 : List ℕ) : List ℕ :=
  if detect_surrogate_pairs t2 then
    if aggressive then eraseLoop t2 else replaceLoop t2
  else
    t2

/-- The final guard of `normalize_unicode_text`: re-try strict encoding and
fall back to the lossy replace-on-encode as the last resort. -/
def finalGuard (t4 : List ℕ) : List ℕ :=
  if utf8Encodable t4 then t4 else lossyEncode t4

/-- `normalize_unicode_text(text, aggressive)` (unicode_handler.py lines
149–220), parameterized over the stdlib normalizers `nfc`/`nfd`:

* strict UTF-8 encoding succeeds → return `(NFC(text), NFC(text) != text)`;
* otherwise `modified = True`; NFD-normalize, apply the math-symbol mapping,
  delete (aggressive) or replace (conservative) the remaining surrogate
  matches (`removalStage`), NFC-normalize, and as a final guard fall back to
  a lossy replace-on-encode if strict encoding still fails (`finalGuard`). -/
def normalize_unicode_text (nfc nfd : List ℕ → List ℕ) (text : List ℕ)
    (aggressive : Bool) : List ℕ × Bool :=
  if utf8Encodable text then
    (nfc text, decide (nfc text ≠ text))
  else
    (finalGuard (nfc (removalStage aggressive (applyMathMapping (nfd text)))), true)

end UnicodeHandler

/-! ## Supporting lemmas -/

namespace Headers

theorem splitLines_ne_nil (l : List Char) : splitLines l ≠ [] := by
  induction l with
  | nil => simp [splitLines]
  | cons c cs ih =>
    by_cases hc : c = '\n'
    · simp [splitLines, hc]
    · simp only [splitLines, if_neg hc]
      cases h : splitLines cs with
      | nil => exact absurd h ih
      | cons a rest => simp

theorem no_newline_mem_splitLines {l a : List Char} (ha : a ∈ splitLines l) :
    '\n' ∉ a := by
  induction l generalizing a with
  | nil =>
    simp [splitLines] at ha
    simp [ha]
  | cons c cs ih =>
    by_cases hc : c = '\n'
    · simp only [splitLines, if_pos hc, List.mem_cons] at ha
      rcases ha with rfl | ha
      · simp
      · exact ih ha
    · simp only [splitLines, if_neg hc] at ha
      cases h : splitLines cs with
      | nil => exact absurd h (splitLines_ne_nil cs)
      | cons b rest =>
        rw [h] at ha
        simp only [List.mem_cons] at ha
        rcases ha with rfl | ha
        · intro hmem
          rcases List.mem_cons.mp hmem with h1 | h1
          · exact hc h1.symm
          · exact ih (h ▸ List.mem_cons_self b rest) h1
        · exact ih (h ▸ List.mem_cons_of_mem b ha)

theorem splitLines_of_no_newline {a : List Char} (h : '\n' ∉ a) :
    splitLines a = [a] := by
  induction a with
  | nil => simp [splitLines]
  | cons c cs ih =>
    have hc : c ≠ '\n' := fun hh => h (hh ▸ List.mem_cons_self c cs)
    have hcs : '\n' ∉ cs := fun hh => h (List.mem_cons_of_mem c hh)
    simp only [splitLines, if_neg hc, ih hcs]

theorem splitLines_append_newline {a t : List Char} (h : '\n' ∉ a) :
    splitLines (a ++ '\n' :: t) = a :: splitLines t := by
  induction a with
  | nil => simp [splitLines]
  | cons c cs ih =>
    have hc : c ≠ '\n' := fun hh => h (hh ▸ List.mem_cons_self c cs)
    have hcs : '\n' ∉ cs := fun hh => h (List.mem_cons_of_mem c hh)
    simp only [List.cons_append, splitLines, if_neg hc, List.append_eq, ih hcs]

theorem splitLines_joinLines {ls : List (List Char)} (hne : ls ≠ [])
    (h : ∀ a ∈ ls, '\n' ∉ a) : splitLines (joinLines ls) = ls := by
  induction ls with
  | nil => exact absurd rfl hne
  | cons a rest ih =>
    cases rest with
    | nil =>
      simp only [joinLines]
      exact splitLines_of_no_newline (h a (List.mem_cons_self a []))
    | cons b rest2 =>
      have ha : '\n' ∉ a := h a (List.mem_cons_self a _)
      show splitLines (a ++ '\n' :: joinLines (b :: rest2)) = a :: b :: rest2
      rw [splitLines_append_newline ha]
      congr 1
      exact ih (by simp) (fun x hx => h x (List.mem_cons_of_mem a hx))

theorem mem_of_mem_dropWhile {p : Char → Bool} {l : List Char} {x : Char}
    (hx : x ∈ l.dropWhile p) : x ∈ l := by
  induction l with
  | nil => simpa using hx
  | cons c cs ih =>
    by_cases h : p c
    · simp only [List.dropWhile_cons, h, if_true] at hx
      exact List.mem_cons_of_mem c (ih hx)
    · simp only [List.dropWhile_cons, h] at hx
      simpa using hx

theorem mem_of_mem_headerTextOf {trimmed : List Char} {x : Char}
    (hx : x ∈ headerTextOf trimmed) : x ∈ trimmed :=
  mem_of_mem_dropWhile (mem_of_mem_dropWhile hx)

/-- Lines touched by the loop never acquire a newline. -/
theorem processLine_no_newline {line : List Char} (h : '\n' ∉ line) :
    '\n' ∉ processLine line := by
  unfold processLine
  cases htr : line.dropWhile pyIsSpace with
  | nil => simpa using h
  | cons c rest =>
    by_cases hc : c = '#'
    · simp only [if_pos hc]
      cases hsl : sectionLabel (headerTextOf (c :: rest)) with
      | none => simpa using h
      | some label =>
        simp only [List.mem_append, List.mem_cons, List.mem_replicate]
        intro hmem
        rcases hmem with h1 | h1 | h1
        · exact absurd h1.2 (by decide)
        · exact absurd h1 (by decide)
        · exact h (mem_of_mem_dropWhile (htr ▸ mem_of_mem_headerTextOf h1))
    · simpa [if_neg hc] using h

theorem processLine_of_not_header {line : List Char}
    (h : (line.dropWhile pyIsSpace).head? ≠ some '#') :
    processLine line = line := by
  unfold processLine
  cases htr : line.dropWhile pyIsSpace with
  | nil => rfl
  | cons c rest =>
    have hc : c ≠ '#' := by
      intro hh
      exact h (by rw [htr, hh]; rfl)
    simp [if_neg hc]

theorem processLine_of_no_label {line : List Char}
    (h1 : (line.dropWhile pyIsSpace).head? = some '#')
    (h2 : sectionLabel (headerTextOf (line.dropWhile pyIsSpace)) = none) :
    processLine line = line := by
  unfold processLine
  cases htr : line.dropWhile pyIsSpace with
  | nil => rfl
  | cons c rest =>
    rw [htr] at h1 h2
    have hc : c = '#' := by simpa using h1
    simp [if_pos hc, h2]

theorem processLine_of_label {line : List Char} {label : List Char}
    (h1 : (line.dropWhile pyIsSpace).head? = some '#')
    (h2 : sectionLabel (headerTextOf (line.dropWhile pyIsSpace)) = some label) :
    processLine line =
      List.replicate (label.count '.' + 1) '#' ++
        (' ' :: headerTextOf (line.dropWhile pyIsSpace)) := by
  unfold processLine
  cases htr : line.dropWhile pyIsSpace with
  | nil => rw [htr] at h1; simp at h1
  | cons c rest =>
    rw [htr] at h1 h2
    have hc : c = '#' := by simpa using h1
    simp [if_pos hc, h2]

theorem dropWhile_idem (p : Char → Bool) (l : List Char) :
    (l.dropWhile p).dropWhile p = l.dropWhile p := by
  induction l with
  | nil => rfl
  | cons c cs ih =>
    by_cases h : p c
    · simp [List.dropWhile_cons, h, ih]
    · simp [List.dropWhile_cons, h]

theorem dropWhile_space_replicate_succ (n : ℕ) (r : List Char) :
    (List.replicate (n + 1) '#' ++ r).dropWhile pyIsSpace =
      List.replicate (n + 1) '#' ++ r := by
  rw [List.replicate_succ]
  simp only [List.cons_append, List.dropWhile_cons,
    show pyIsSpace '#' = false from rfl, Bool.false_eq_true, if_false]

theorem dropWhile_hash_replicate (k : ℕ) (h : List Char) :
    (List.replicate k '#' ++ ' ' :: h).dropWhile (fun c => c == '#') =
      ' ' :: h := by
  induction k with
  | zero => simp [List.dropWhile_cons]
  | succ n ih => simpa [List.replicate_succ, List.dropWhile_cons] using ih

theorem takeWhile_hash_replicate (k : ℕ) (h : List Char) :
    (List.replicate k '#' ++ ' ' :: h).takeWhile (fun c => c == '#') =
      List.replicate k '#' := by
  induction k with
  | zero => simp [List.takeWhile_cons]
  | succ n ih => simpa [List.replicate_succ, List.takeWhile_cons] using ih

theorem headerTextOf_output (k : ℕ) (trimmed : List Char) :
    headerTextOf (List.replicate k '#' ++ ' ' :: headerTextOf trimmed) =
      headerTextOf trimmed := by
  have h1 : (List.replicate k '#' ++ ' ' :: headerTextOf trimmed).dropWhile
      (fun c => c == '#') = ' ' :: headerTextOf trimmed :=
    dropWhile_hash_replicate k _
  show ((List.replicate k '#' ++ ' ' :: headerTextOf trimmed).dropWhile
      (fun c => c == '#')).dropWhile pyIsSpace = headerTextOf trimmed
  rw [h1, List.dropWhile_cons]
  simp only [show pyIsSpace ' ' = true from rfl, if_true]
  exact dropWhile_idem pyIsSpace _

theorem processLine_idem (line : List Char) :
    processLine (processLine line) = processLine line := by
  by_cases h1 : (line.dropWhile pyIsSpace).head? = some '#'
  · cases h2 : sectionLabel (headerTextOf (line.dropWhile pyIsSpace)) with
    | none => rw [processLine_of_no_label h1 h2, processLine_of_no_label h1 h2]
    | some label =>
      rw [processLine_of_label h1 h2]
      set H := headerTextOf (line.dropWhile pyIsSpace) with hH
      set out := List.replicate (label.count '.' + 1) '#' ++ (' ' :: H) with hout
      have hdw : out.dropWhile pyIsSpace = out := dropWhile_space_replicate_succ _ _
      have hhead : (out.dropWhile pyIsSpace).head? = some '#' := by
        rw [hdw, hout, List.replicate_succ]
        rfl
      have hht : headerTextOf (out.dropWhile pyIsSpace) = H := by
        rw [hdw, hout, hH]
        exact headerTextOf_output _ _
      have h2o : sectionLabel (headerTextOf (out.dropWhile pyIsSpace)) = some label := by
        rw [hht, hH, h2]
      rw [processLine_of_label hhead h2o, hht]
  · rw [processLine_of_not_header h1, processLine_of_not_header h1]

theorem splitLines_clean_markdown_headers (text : List Char) :
    splitLines (clean_markdown_headers text) = (splitLines text).map processLine := by
  unfold clean_markdown_headers
  apply splitLines_joinLines
  · intro h
    exact splitLines_ne_nil text (List.map_eq_nil.mp h)
  · intro a ha
    obtain ⟨b, hb, rfl⟩ := List.mem_map.mp ha
    exact processLine_no_newline (no_newline_mem_splitLines hb)

end Headers

namespace UnicodeHandler

theorem filter_map_succ (p : ℕ → Bool) (l : List ℕ) :
    (l.map Nat.succ).filter p = (l.filter (fun i => p (i + 1))).map Nat.succ := by
  induction l with
  | nil => rfl
  | cons i rest ih =>
    by_cases h : p (i + 1) <;>
      simp [List.filter_cons, Nat.succ_eq_add_one, h, ih]

theorem surrogatePositions_cons (c : ℕ) (s : List ℕ) :
    surrogatePositions (c :: s) =
      (if isSurrogate c then [0] else []) ++
        (surrogatePositions s).map Nat.succ := by
  unfold surrogatePositions
  rw [List.length_cons, List.range_succ_eq_map, List.filter_cons]
  by_cases h : isSurrogate c
  · simp only [List.getD_cons_zero, h, if_true, List.singleton_append]
    congr 1
    rw [filter_map_succ]
    congr 1
  · simp only [List.getD_cons_zero, h, Bool.false_eq_true, if_false,
      List.nil_append]
    rw [filter_map_succ]
    congr 1

theorem foldl_eraseIdx_map_succ (l : List ℕ) (c : ℕ) (s : List ℕ) :
    (l.map Nat.succ).foldl (fun t i => t.eraseIdx i) (c :: s) =
      c :: l.foldl (fun t i => t.eraseIdx i) s := by
  induction l generalizing s with
  | nil => rfl
  | cons i rest ih =>
    simp only [List.map_cons, List.foldl_cons, Nat.succ_eq_add_one,
      List.eraseIdx_cons_succ]
    exact ih (s.eraseIdx i)

theorem foldl_set_map_succ (l : List ℕ) (c : ℕ) (s : List ℕ) :
    (l.map Nat.succ).foldl (fun t i => t.set i qmark) (c :: s) =
      c :: l.foldl (fun t i => t.set i qmark) s := by
  induction l generalizing s with
  | nil => rfl
  | cons i rest ih =>
    simp only [List.map_cons, List.foldl_cons, Nat.succ_eq_add_one,
      List.set_cons_succ]
    exact ih (s.set i qmark)

/-- Deleting every surrogate match from the back is plain filtering. -/
theorem eraseLoop_eq_filter (s : List ℕ) :
    eraseLoop s = s.filter (fun c => !isSurrogate c) := by
  induction s with
  | nil => rfl
  | cons c rest ih =>
    unfold eraseLoop
    rw [surrogatePositions_cons, List.reverse_append, List.reverse_map,
      List.filter_cons]
    by_cases h : isSurrogate c
    · simp only [h, if_true, List.reverse_cons, List.reverse_nil,
        List.nil_append, Bool.not_true, Bool.false_eq_true, if_false]
      rw [List.foldl_append, foldl_eraseIdx_map_succ]
      show ((c :: eraseLoop rest).eraseIdx 0) = _
      rw [List.eraseIdx_cons_zero, ih]
    · simp only [h, Bool.false_eq_true, if_false, List.reverse_nil,
        List.append_nil, Bool.not_false, if_true]
      rw [foldl_eraseIdx_map_succ]
      show c :: eraseLoop rest = _
      rw [ih]

/-- Replacing every surrogate match from the back is a plain map. -/
theorem replaceLoop_eq_map (s : List ℕ) :
    replaceLoop s = s.map (fun c => if isSurrogate c then qmark else c) := by
  induction s with
  | nil => rfl
  | cons c rest ih =>
    unfold replaceLoop
    rw [surrogatePositions_cons, List.reverse_append, List.reverse_map,
      List.map_cons]
    by_cases h : isSurrogate c
    · simp only [h, if_true, List.reverse_cons, List.reverse_nil,
        List.nil_append]
      rw [List.foldl_append, foldl_set_map_succ]
      show ((c :: replaceLoop rest).set 0 qmark) = _
      rw [List.set_cons_zero, ih]
    · simp only [h, Bool.false_eq_true, if_false, List.reverse_nil,
        List.append_nil]
      rw [foldl_set_map_succ]
      show c :: replaceLoop rest = _
      rw [ih]

theorem detect_filter_false (s : List ℕ) :
    detect_surrogate_pairs (s.filter (fun c => !isSurrogate c)) = false := by
  unfold detect_surrogate_pairs
  rw [Bool.eq_false_iff]
  intro h
  obtain ⟨c, hc, hsurr⟩ := List.any_eq_true.mp h
  have := (List.mem_filter.mp hc).2
  rw [hsurr] at this
  simp at this

theorem detect_replace_false (s : List ℕ) :
    detect_surrogate_pairs (s.map (fun c => if isSurrogate c then qmark else c)) = false := by
  unfold detect_surrogate_pairs
  rw [Bool.eq_false_iff]
  intro h
  obtain ⟨c, hc, hsurr⟩ := List.any_eq_true.mp h
  obtain ⟨b, _, rfl⟩ := List.mem_map.mp hc
  by_cases hb : isSurrogate b
  · rw [if_pos hb] at hsurr
    exact absurd hsurr (by decide)
  · rw [if_neg hb] at hsurr
    exact absurd hsurr (by simpa using hb)

/-- The text produced by the surrogate-removal stage is always
surrogate-free, whichever mode ran. -/
theorem detect_removalStage_false (t2 : List ℕ) (aggressive : Bool) :
    detect_surrogate_pairs (removalStage aggressive t2) = false := by
  unfold removalStage
  by_cases h2 : detect_surrogate_pairs t2
  · rw [if_pos h2]
    cases aggressive with
    | true => rw [if_pos rfl, eraseLoop_eq_filter]; exact detect_filter_false t2
    | false =>
      rw [if_neg (by simp), replaceLoop_eq_map]
      exact detect_replace_false t2
  · rw [if_neg h2]
    exact Bool.eq_false_iff.mpr h2

theorem utf8Encodable_iff_detect (s : List ℕ) :
    utf8Encodable s = !detect_surrogate_pairs s := rfl

theorem utf8Encodable_of_detect_false {s : List ℕ}
    (h : detect_surrogate_pairs s = false) : utf8Encodable s = true := by
  rw [utf8Encodable_iff_detect, h]
  rfl

theorem detect_false_of_utf8Encodable {s : List ℕ}
    (h : utf8Encodable s = true) : detect_surrogate_pairs s = false := by
  rw [utf8Encodable_iff_detect] at h
  cases hd : detect_surrogate_pairs s
  · rfl
  · rw [hd] at h
    cases h

theorem finalGuard_of_detect_false {t4 : List ℕ}
    (h : detect_surrogate_pairs t4 = false) : finalGuard t4 = t4 := by
  unfold finalGuard
  rw [if_pos (utf8Encodable_of_detect_false h)]

theorem normalize_fast (nfc nfd : List ℕ → List ℕ) {text : List ℕ}
    (h : detect_surrogate_pairs text = false) (aggressive : Bool) :
    normalize_unicode_text nfc nfd text aggressive =
      (nfc text, decide (nfc text ≠ text)) := by
  unfold normalize_unicode_text
  rw [if_pos (utf8Encodable_of_detect_false h)]

theorem normalize_slow (nfc nfd : List ℕ → List ℕ) {text : List ℕ}
    (h : detect_surrogate_pairs text = true) (aggressive : Bool) :
    normalize_unicode_text nfc nfd text aggressive =
      (finalGuard (nfc (removalStage aggressive (applyMathMapping (nfd text)))),
        true) := by
  unfold normalize_unicode_text
  rw [if_neg (by rw [utf8Encodable_iff_detect, h]; simp)]

/-- Whatever `normalize_unicode_text` returns is surrogate-free, provided
`nfc` never manufactures surrogate code points. -/
theorem normalize_result_detect_false (nfc nfd : List ℕ → List ℕ)
    (hsurr : ∀ s, detect_surrogate_pairs s = false →
      detect_surrogate_pairs (nfc s) = false)
    (text : List ℕ) (aggressive : Bool) :
    detect_surrogate_pairs ((normalize_unicode_text nfc nfd text aggressive).1)
      = false := by
  by_cases h : detect_surrogate_pairs text
  · rw [normalize_slow nfc nfd h]
    have h3 := detect_removalStage_false (applyMathMapping (nfd text)) aggressive
    have h4 := hsurr _ h3
    rw [finalGuard_of_detect_false h4]
    exact h4
  · rw [Bool.not_eq_true] at h
    rw [normalize_fast nfc nfd h]
    exact hsurr _ h

end UnicodeHandler

namespace RateLimiter

theorem rlUpdate_self (m : RLMap) (p : String) (s : RLState) :
    rlUpdate m p s p = some s := by
  unfold rlUpdate
  simp

theorem rlUpdate_other (m : RLMap) (p q : String) (s : RLState) (h : q ≠ p) :
    rlUpdate m p s q = m q := by
  unfold rlUpdate
  simp [h]

/-- `markHit` followed by `setWaitingPeriod` leaves the provider in the fully
populated state `{hit: True, last_hit_time: now, waiting_period: w}`. -/
theorem markHit_setWait_lookup (m : RLMap) (p : String) (now w : ℚ) :
    set_waiting_period (set_rate_limit_hit m p now) p w p =
      some ⟨true, now, w⟩ := by
  unfold set_waiting_period set_rate_limit_hit
  rw [rlUpdate_self]
  simp [rlUpdate_self]

/-- The spec's claimed state invariant: a hit provider has a positive
waiting period and a recorded hit time (`time.time()` values are positive;
`0` is the never-set sentinel the source initializes with). -/
def StrongInvariant (m : RLMap) : Prop :=
  ∀ p s, m p = some s → s.hit = true → 0 < s.waitingPeriod ∧ 0 < s.lastHitTime

/-- The part of the invariant the code actually maintains: a hit provider
always has its hit time recorded. -/
def WeakInvariant (m : RLMap) : Prop :=
  ∀ p s, m p = some s → s.hit = true → 0 < s.lastHitTime

theorem weakInvariant_initial : WeakInvariant initialRateLimiter := by
  intro p s h hh
  unfold initialRateLimiter at h
  by_cases hp : p = "gemini" ∨ p = "openai" ∨ p = "anthropic" ∨ p = "claude"
  · rw [if_pos hp] at h
    cases h
    cases hh
  · rw [if_neg hp] at h
    cases h

end RateLimiter

/-! ## Claim theorems -/

/-- C2: `check_and_wait_if_needed` returns `false` immediately (no sleep)
when the provider is untracked (lazily materializing it) or its `hit` flag is
clear; when `hit` is set and the elapsed time since `last_hit_time` is still
less than `waiting_period` it sleeps exactly the remaining
`waiting_period - elapsed` and returns `true`; and when `hit` is set but the
waiting period has already elapsed it clears the flag and returns `false`. -/
theorem check_and_wait_if_needed_spec (m : RateLimiter.RLMap) (p : String)
    (now : ℚ) :
    (m p = none →
      RateLimiter.check_and_wait_if_needed m p now =
        (RateLimiter.rlUpdate m p RateLimiter.defaultRLState, false, 0))
  ∧ (∀ s, m p = some s → s.hit = false →
      RateLimiter.check_and_wait_if_needed m p now = (m, false, 0))
  ∧ (∀ s, m p = some s → s.hit = true →
      now - s.lastHitTime < s.waitingPeriod →
      RateLimiter.check_and_wait_if_needed m p now =
        (m, true, s.waitingPeriod - (now - s.lastHitTime)))
  ∧ (∀ s, m p = some s → s.hit = true →
      s.waitingPeriod ≤ now - s.lastHitTime →
      RateLimiter.check_and_wait_if_needed m p now =
        (RateLimiter.rlUpdate m p { s with hit := false }, false, 0)) := by
  refine ⟨?_, ?_, ?_, ?_⟩
  · intro h
    unfold RateLimiter.check_and_wait_if_needed
    rw [h]
  · intro s h hh
    unfold RateLimiter.check_and_wait_if_needed
    rw [h]
    simp [hh]
  · intro s h hh hlt
    unfold RateLimiter.check_and_wait_if_needed
    rw [h]
    simp only [hh, Bool.true_eq_false, if_false]
    rw [if_pos hlt, if_pos (by linarith)]
  · intro s h hh hle
    unfold RateLimiter.check_and_wait_if_needed
    rw [h]
    simp only [hh, Bool.true_eq_false, if_false]
    rw [if_neg (not_lt.mpr hle)]

/-- Witness for C2: a provider marked hit at time 100 with a 30-second
waiting period, queried at time 110, sleeps the remaining 20 seconds and
returns `true`. -/
theorem check_and_wait_if_needed_spec_witness :
    RateLimiter.check_and_wait_if_needed
        (RateLimiter.set_waiting_period
          (RateLimiter.set_rate_limit_hit RateLimiter.initialRateLimiter
            "gemini" 100) "gemini" 30) "gemini" 110 =
      (RateLimiter.set_waiting_period
        (RateLimiter.set_rate_limit_hit RateLimiter.initialRateLimiter
          "gemini" 100) "gemini" 30, true, 20) := by
  have h := (check_and_wait_if_needed_spec
      (RateLimiter.set_waiting_period
        (RateLimiter.set_rate_limit_hit RateLimiter.initialRateLimiter
          "gemini" 100) "gemini" 30) "gemini" 110).2.2.1
    ⟨true, 100, 30⟩ (RateLimiter.markHit_setWait_lookup _ _ _ _) rfl
    (by norm_num)
  rw [h]
  norm_num

/-- C4 counterexample: immediately after `set_rate_limit_hit` alone (from the
freshly initialized limiter, at time 100) the `"gemini"` entry is
`{hit: True, last_hit_time: 100, waiting_period: 0}`, so the claimed
invariant `hit = true → waiting_period > 0` is false. -/
theorem set_rate_limit_hit_violates_invariant :
    (RateLimiter.set_rate_limit_hit RateLimiter.initialRateLimiter "gemini"
        100) "gemini" = some ⟨true, 100, 0⟩
  ∧ ¬ RateLimiter.StrongInvariant
      (RateLimiter.set_rate_limit_hit RateLimiter.initialRateLimiter "gemini"
        100) := by
  constructor
  · rfl
  · intro h
    have h2 := h "gemini" ⟨true, 100, 0⟩ rfl rfl
    exact absurd h2.1 (by norm_num)

/-- C4 (amended): every rate-limiter operation preserves the weakened
invariant `hit = true → last_hit_time is set (> 0)` (assuming positive wall
clock), and the full invariant — positive waiting period included — is
established at provider `p` by `markHit` followed by `setWaitingPeriod(d)`
with `d > 0`, which is exactly how the retry handlers call the limiter. -/
theorem rate_limiter_weak_invariant_preserved (m : RateLimiter.RLMap)
    (hm : RateLimiter.WeakInvariant m) :
    (∀ p, RateLimiter.WeakInvariant (RateLimiter.get_status m p).1)
  ∧ (∀ p now, 0 < now →
      RateLimiter.WeakInvariant (RateLimiter.set_rate_limit_hit m p now))
  ∧ (∀ p w, RateLimiter.WeakInvariant (RateLimiter.set_waiting_period m p w))
  ∧ (∀ p, RateLimiter.WeakInvariant (RateLimiter.reset_rate_limit m p))
  ∧ (∀ p now,
      RateLimiter.WeakInvariant
        (RateLimiter.check_and_wait_if_needed m p now).1)
  ∧ RateLimiter.WeakInvariant (RateLimiter.clear_all_limits m)
  ∧ (∀ p now d, RateLimiter.set_waiting_period
        (RateLimiter.set_rate_limit_hit m p now) p d p = some ⟨true, now, d⟩) := by
  have hupd : ∀ p s₀, (s₀.hit = true → 0 < s₀.lastHitTime) →
      RateLimiter.WeakInvariant (RateLimiter.rlUpdate m p s₀) := by
    intro p s₀ hs₀ q s hq hh
    by_cases hqp : q = p
    · subst hqp
      rw [RateLimiter.rlUpdate_self] at hq
      cases hq
      exact hs₀ hh
    · rw [RateLimiter.rlUpdate_other m p q s₀ hqp] at hq
      exact hm q s hq hh
  refine ⟨?_, ?_, ?_, ?_, ?_, ?_, ?_⟩
  · intro p
    unfold RateLimiter.get_status
    cases h : m p with
    | none => exact hupd p _ (by intro hh; cases hh)
    | some s => exact hm
  · intro p now hnow
    unfold RateLimiter.set_rate_limit_hit
    apply hupd
    intro _
    exact hnow
  · intro p w
    unfold RateLimiter.set_waiting_period
    apply hupd
    intro hh
    cases h : m p with
    | none =>
      rw [h] at hh
      cases hh
    | some s =>
      rw [h] at hh
      simp only [Option.getD_some] at hh ⊢
      exact hm p s h hh
  · intro p
    unfold RateLimiter.reset_rate_limit
    cases h : m p with
    | none => exact hupd p _ (by intro hh; cases hh)
    | some s => exact hupd p _ (by intro hh; cases hh)
  · intro p now
    unfold RateLimiter.check_and_wait_if_needed
    cases h : m p with
    | none => exact hupd p _ (by intro hh; cases hh)
    | some s =>
      by_cases hh : s.hit = false
      · simpa [hh] using hm
      · simp only [hh, if_false]
        by_cases hlt : now - s.lastHitTime < s.waitingPeriod
        · rw [if_pos hlt]
          by_cases hr : (0 : ℚ) < s.waitingPeriod - (now - s.lastHitTime)
          · simpa [hr] using hm
          · simpa [hr] using hm
        · rw [if_neg hlt]
          exact hupd p _ (by intro hcontra; cases hcontra)
  · intro q s hq hh
    unfold RateLimiter.clear_all_limits at hq
    cases h : m q with
    | none => rw [h] at hq; cases hq
    | some s₂ =>
      rw [h] at hq
      cases hq
      cases hh
  · intro p now d
    exact RateLimiter.markHit_setWait_lookup m p now d

/-- Witness for the amended C4: from the initial limiter (which satisfies the
weak invariant), `markHit` at time 100 followed by `setWaitingPeriod 30`
leaves `"gemini"` in the fully populated hit state. -/
theorem rate_limiter_weak_invariant_preserved_witness :
    RateLimiter.set_waiting_period
      (RateLimiter.set_rate_limit_hit RateLimiter.initialRateLimiter "gemini"
        100) "gemini" 30 "gemini" = some ⟨true, 100, 30⟩ :=
  (rate_limiter_weak_invariant_preserved RateLimiter.initialRateLimiter
    RateLimiter.weakInvariant_initial).2.2.2.2.2.2 "gemini" 100 30

/-- The dynamic-wait formula exactly as the claim states it, with the
per-provider multiplier written as an if-chain defaulting to `1`. -/
def providerFactorSpec (p : String) : ℚ :=
  if p = "gemini" then 1
  else if p = "openai" then 1.2
  else if p = "anthropic" then 1
  else if p = "claude" then 1
  else 1

theorem lookup_factor_eq (p : String) :
    ((RateLimiter.provider_factors.lookup p).getD 1) = providerFactorSpec p := by
  unfold RateLimiter.provider_factors providerFactorSpec
  by_cases h1 : p = "gemini"
  · subst h1
    simp [List.lookup]
  · by_cases h2 : p = "openai"
    · subst h2
      simp [List.lookup]
      norm_num
    · by_cases h3 : p = "anthropic"
      · subst h3
        simp [List.lookup]
      · by_cases h4 : p = "claude"
        · subst h4
          simp [List.lookup]
        · have e1 : (p == "gemini") = false := beq_eq_false_iff_ne.mpr h1
          have e2 : (p == "openai") = false := beq_eq_false_iff_ne.mpr h2
          have e3 : (p == "anthropic") = false := beq_eq_false_iff_ne.mpr h3
          have e4 : (p == "claude") = false := beq_eq_false_iff_ne.mpr h4
          simp only [List.lookup, e1, e2, e3, e4, if_neg h1, if_neg h2,
            if_neg h3, if_neg h4]
          rfl

/-- C8: for every provider, attempt count and base wait,
`calculate_dynamic_wait_time` equals
`min (b * factor + n² * 10 * factor) 300` with the per-provider factor
defaulting to `1` for unknown providers. -/
theorem calculate_dynamic_wait_time_spec (p : String) (n : ℕ) (b : ℚ) :
    RateLimiter.calculate_dynamic_wait_time p n b =
      min (b * providerFactorSpec p + (n : ℚ) ^ 2 * 10 * providerFactorSpec p)
        300 := by
  unfold RateLimiter.calculate_dynamic_wait_time
  rw [lookup_factor_eq]
  congr 1
  ring

/-- A caught repository `HTTPStatusError(429)`: its own `status_code`
attribute is 429, but it carries no `response` object. -/
def e429NoResponse : RetryManager.CaughtError :=
  ⟨some 429, none, none, "HTTPステータスエラー: 429"⟩

/-- C5 counterexample: `handle_http_error` reads the status from
`e.response.status_code`, so the repository's own `HTTPStatusError` with
`status_code = 429` (as raised by every provider, and having no `response`
attribute) is classified as status `0`: the limiter is left untouched
(`"gemini"` still `{hit: False, …}`), nothing is slept, and the exception is
re-raised unchanged instead of being converted into the rate-limit path. -/
theorem handle_http_error_429_counterexample :
    RetryManager.handle_http_error e429NoResponse "gemini" 1
        RateLimiter.initialRateLimiter 100 =
      (RateLimiter.initialRateLimiter, 0, .reraised)
  ∧ (RetryManager.handle_http_error e429NoResponse "gemini" 1
        RateLimiter.initialRateLimiter 100).1 "gemini" =
      some RateLimiter.defaultRLState
  ∧ e429NoResponse.classStatusCode = some 429 := by
  refine ⟨rfl, rfl, rfl⟩

/-- C5 (amended): for every caught error that exposes
`response.status_code = 429`, `handle_http_error` marks the provider hit and
records a waiting period of vendor `retry_delay + 10` when present and
`60 + retry_count² * 10` otherwise, sleeps exactly that duration, and raises
the retryable `HTTPStatusError(429)`; `handle_resource_exhausted_error` does
the same unconditionally with margin `+ 5` and dynamic value
`60 + retry_count * 20`.  An `HTTPStatusError` carrying its status only in
its own `status_code` attribute takes the generic re-raise path instead
(see the counterexample). -/
theorem rate_limit_error_handlers_spec (e : RetryManager.CaughtError)
    (p : String) (rc : ℕ) (m : RateLimiter.RLMap) (now : ℚ)
    (h429 : e.respStatusCode = some 429) :
    (RetryManager.handle_http_error e p rc m now =
      (RateLimiter.set_waiting_period (RateLimiter.set_rate_limit_hit m p now)
          p (RetryManager.http429WaitTime e rc),
        RetryManager.http429WaitTime e rc, .httpStatusError 429))
  ∧ ((RetryManager.handle_http_error e p rc m now).1 p =
      some ⟨true, now, RetryManager.http429WaitTime e rc⟩)
  ∧ (∀ d, e.respRetryDelay = some d →
      RetryManager.http429WaitTime e rc = (d : ℚ) + 10)
  ∧ (e.respRetryDelay = none →
      RetryManager.http429WaitTime e rc = 60 + ((rc : ℚ) * (rc : ℚ) * 10))
  ∧ (RetryManager.handle_resource_exhausted_error e p rc m now =
      (RateLimiter.set_waiting_period (RateLimiter.set_rate_limit_hit m p now)
          p (RetryManager.resourceExhaustedWaitTime e rc),
        RetryManager.resourceExhaustedWaitTime e rc, .httpStatusError 429))
  ∧ ((RetryManager.handle_resource_exhausted_error e p rc m now).1 p =
      some ⟨true, now, RetryManager.resourceExhaustedWaitTime e rc⟩)
  ∧ (∀ d, e.respRetryDelay = some d →
      RetryManager.resourceExhaustedWaitTime e rc = (d : ℚ) + 5)
  ∧ (e.respRetryDelay = none →
      RetryManager.resourceExhaustedWaitTime e rc = 60 + ((rc : ℚ) * 20))
  ∧ RetryManager.isRetryException .httpStatusError = true := by
  have hmain : RetryManager.handle_http_error e p rc m now =
      (RateLimiter.set_waiting_period (RateLimiter.set_rate_limit_hit m p now)
          p (RetryManager.http429WaitTime e rc),
        RetryManager.http429WaitTime e rc, .httpStatusError 429) := by
    unfold RetryManager.handle_http_error
    rw [h429]
    simp only [Option.getD_some]
    rw [if_neg (by norm_num)]
    simp
  have hre : RetryManager.handle_resource_exhausted_error e p rc m now =
      (RateLimiter.set_waiting_period (RateLimiter.set_rate_limit_hit m p now)
          p (RetryManager.resourceExhaustedWaitTime e rc),
        RetryManager.resourceExhaustedWaitTime e rc, .httpStatusError 429) := rfl
  refine ⟨hmain, ?_, ?_, ?_, hre, ?_, ?_, ?_, rfl⟩
  · rw [hmain]
    exact RateLimiter.markHit_setWait_lookup m p now _
  · intro d hd
    unfold RetryManager.http429WaitTime
    rw [hd]
  · intro hd
    unfold RetryManager.http429WaitTime
    rw [hd]
  · rw [hre]
    exact RateLimiter.markHit_setWait_lookup m p now _
  · intro d hd
    unfold RetryManager.resourceExhaustedWaitTime
    rw [hd]
  · intro hd
    unfold RetryManager.resourceExhaustedWaitTime
    rw [hd]

/-- Witness for the amended C5: a `requests`-style 429 error with a vendor
`retry_delay` of 30 seconds, at retry 2: the provider is marked hit with
waiting period 40 = 30 + 10, 40 seconds are slept, and `HTTPStatusError(429)`
is raised. -/
theorem rate_limit_error_handlers_spec_witness :
    (RetryManager.handle_http_error ⟨none, some 429, some 30, "429"⟩ "gemini" 2
        RateLimiter.initialRateLimiter 100).1 "gemini" =
      some ⟨true, 100, 40⟩ := by
  have h := (rate_limit_error_handlers_spec ⟨none, some 429, some 30, "429"⟩
    "gemini" 2 RateLimiter.initialRateLimiter 100 rfl).2.1
  rw [h]
  norm_num [RetryManager.http429WaitTime]

/-- C1: once every retry attempt is used up (`retry_count ≥ MAX_RETRIES`, so
no retries remain), the page-translation exception boundary — both
`translator.translate_text`'s `except RETRY_EXCEPTIONS` branch and
`TranslatorService.translate_page`'s delegation to
`RetryManager.handle_retry_exception` — returns normally (`.ok`) with a
non-empty human-readable error body and an empty header list, instead of
re-raising. -/
theorem translate_exhaustion_returns (e : RetryManager.ExcInfo) (rc : ℕ)
    (hrc : RetryManager.MAX_RETRIES ≤ rc) :
    (RetryManager.translate_text_except_branch e rc =
      .ok (RetryManager.exhaustionErrorBody RetryManager.MAX_RETRIES e, []))
  ∧ (RetryManager.translate_page_except_branch RetryManager.MAX_RETRIES e rc =
      .ok (RetryManager.exhaustionErrorBody RetryManager.MAX_RETRIES e, []))
  ∧ RetryManager.exhaustionErrorBody RetryManager.MAX_RETRIES e ≠ "" := by
  have hneg : ¬ (0 : ℤ) < (RetryManager.MAX_RETRIES : ℤ) - (rc : ℤ) := by
    simp only [not_lt, sub_nonpos]
    exact_mod_cast hrc
  refine ⟨?_, ?_, ?_⟩
  · unfold RetryManager.translate_text_except_branch
    rw [if_neg hneg]
  · unfold RetryManager.translate_page_except_branch
      RetryManager.handle_retry_exception
    rw [if_neg hneg]
  · intro hempty
    have hlen := congrArg String.length hempty
    unfold RetryManager.exhaustionErrorBody at hlen
    simp only [String.length_append] at hlen
    have hpos : 0 < ("翻訳エラーが発生しました: 翻訳エラー (最大リトライ回数" : String).length := by
      decide
    have hz : ("" : String).length = 0 := rfl
    omega

/-- Witness for C1: a concrete `APIError` at the fifth (final) attempt. -/
theorem translate_exhaustion_returns_witness :
    (RetryManager.translate_text_except_branch ⟨"APIError", "boom"⟩ 5 =
      .ok (RetryManager.exhaustionErrorBody RetryManager.MAX_RETRIES
        ⟨"APIError", "boom"⟩, []))
  ∧ (RetryManager.translate_page_except_branch RetryManager.MAX_RETRIES
        ⟨"APIError", "boom"⟩ 5 =
      .ok (RetryManager.exhaustionErrorBody RetryManager.MAX_RETRIES
        ⟨"APIError", "boom"⟩, []))
  ∧ RetryManager.exhaustionErrorBody RetryManager.MAX_RETRIES
      ⟨"APIError", "boom"⟩ ≠ "" :=
  translate_exhaustion_returns ⟨"APIError", "boom"⟩ 5 (by decide)

/-- C9 counterexample: constructing a provider directly
(`BaseProvider.__init__`, inherited by every vendor variant) with an empty
credential raises the builtin `ValueError`, which is not `ValidationError`
and not part of the `APIError` taxonomy. -/
theorem base_provider_empty_key_raises_valueError :
    Providers.base_provider_init "" none "gemini-2.5-flash-preview-05-20" 500 =
      .error .valueError
  ∧ Providers.isAPIError .valueError = false
  ∧ Providers.InitError.valueError ≠ Providers.InitError.validationError :=
  ⟨rfl, rfl, by decide⟩

/-- C9 (amended): an absent credential always fails synchronously at
construction time, but the raised class depends on the entry point:
`TranslatorService.__init__` (env var unset or empty) and the
`create_provider` factory raise `ValidationError` (a member of the
`APIError` taxonomy); direct `BaseProvider.__init__` construction raises the
builtin `ValueError` instead (wrapped into `ValidationError` only when the
construction goes through the factory). -/
theorem provider_construction_credential_spec :
    (∀ pn mn t,
      Providers.validate_provider_name (Providers.canonicalName pn) = true →
      Providers.translator_service_init pn none mn t =
          .error .validationError
        ∧ Providers.translator_service_init pn (some "") mn t =
          .error .validationError)
  ∧ (∀ pn mn t, pn ≠ "" →
      Providers.create_provider pn "" mn t = .error .validationError)
  ∧ (∀ mn dm t,
      Providers.base_provider_init "" mn dm t = .error .valueError)
  ∧ Providers.isAPIError .validationError = true := by
  refine ⟨?_, ?_, ?_, rfl⟩
  · intro pn mn t hv
    constructor
    · simp [Providers.translator_service_init, hv]
    · simp [Providers.translator_service_init, hv]
  · intro pn mn t hpn
    unfold Providers.create_provider
    rw [if_neg hpn, if_pos rfl]
  · intro mn dm t
    unfold Providers.base_provider_init
    rw [if_pos rfl]

/-- Witness for the amended C9: the `"gemini"` service with an unset
credential environment variable. -/
theorem provider_construction_credential_spec_witness :
    Providers.translator_service_init "gemini" none none 500 =
        .error .validationError
  ∧ Providers.translator_service_init "gemini" (some "") none 500 =
        .error .validationError :=
  provider_construction_credential_spec.1 "gemini" none 500 (by decide)

/-- C3: `clean_markdown_headers` rewrites every line whose lstripped form
begins with the heading marker `'#'` and whose header text (the text after
the marker run and its trailing whitespace) starts with a numeric dotted
label, forcing the marker depth to `1 + (count of '.' in the label)`; every
line without a marker, or with a marker but no leading numeric label, passes
through unchanged; and the output lines are exactly the per-line images of
the input lines, in order. -/
theorem clean_markdown_headers_spec (text : List Char) :
    Headers.splitLines (Headers.clean_markdown_headers text) =
      (Headers.splitLines text).map Headers.processLine
  ∧ (∀ line label : List Char,
      (line.dropWhile Headers.pyIsSpace).head? = some '#' →
      Headers.sectionLabel
          (Headers.headerTextOf (line.dropWhile Headers.pyIsSpace)) =
        some label →
      Headers.processLine line =
          List.replicate (label.count '.' + 1) '#' ++
            (' ' :: Headers.headerTextOf (line.dropWhile Headers.pyIsSpace))
        ∧ ((Headers.processLine line).takeWhile (fun c => c == '#')).length =
            label.count '.' + 1)
  ∧ (∀ line : List Char, (line.dropWhile Headers.pyIsSpace).head? ≠ some '#' →
      Headers.processLine line = line)
  ∧ (∀ line : List Char, (line.dropWhile Headers.pyIsSpace).head? = some '#' →
      Headers.sectionLabel
          (Headers.headerTextOf (line.dropWhile Headers.pyIsSpace)) = none →
      Headers.processLine line = line) := by
  refine ⟨Headers.splitLines_clean_markdown_headers text, ?_, ?_, ?_⟩
  · intro line label h1 h2
    have heq := Headers.processLine_of_label h1 h2
    refine ⟨heq, ?_⟩
    rw [heq, Headers.takeWhile_hash_replicate, List.length_replicate]
  · intro line h
    exact Headers.processLine_of_not_header h
  · intro line h1 h2
    exact Headers.processLine_of_no_label h1 h2

/-- Witness for C3: the line `"### 2.1 Method"` (wrong depth emitted by the
backend) is corrected to depth 2 = 1 + 1 dot. -/
theorem clean_markdown_headers_spec_witness :
    Headers.processLine ("### 2.1 Method".toList) = "## 2.1 Method".toList
  ∧ ((Headers.processLine ("### 2.1 Method".toList)).takeWhile
        (fun c => c == '#')).length = 2 := by
  have h := (clean_markdown_headers_spec []).2.1 ("### 2.1 Method".toList)
    ("2.1".toList) (by decide) (by decide)
  have hc : (("2.1".toList).count '.') = 1 := by decide
  rw [hc] at h
  exact ⟨by rw [h.1]; decide, h.2⟩

/-- C10: `clean_markdown_headers` is idempotent, preserves the number of
lines exactly, and leaves every non-header line (lstripped form not starting
with `'#'`) byte-identical. -/
theorem clean_markdown_headers_idem (text : List Char) :
    Headers.clean_markdown_headers (Headers.clean_markdown_headers text) =
      Headers.clean_markdown_headers text
  ∧ (Headers.splitLines (Headers.clean_markdown_headers text)).length =
      (Headers.splitLines text).length
  ∧ (∀ line ∈ Headers.splitLines text,
      (line.dropWhile Headers.pyIsSpace).head? ≠ some '#' →
      Headers.processLine line = line) := by
  refine ⟨?_, ?_, ?_⟩
  · show Headers.joinLines
        ((Headers.splitLines (Headers.clean_markdown_headers text)).map
          Headers.processLine) = _
    rw [Headers.splitLines_clean_markdown_headers, List.map_map]
    unfold Headers.clean_markdown_headers
    congr 1
    exact List.map_congr_left (fun a _ => Headers.processLine_idem a)
  · rw [Headers.splitLines_clean_markdown_headers, List.length_map]
  · intro line _ h
    exact Headers.processLine_of_not_header h

/-- Witness for C10: a non-header line passes through untouched, and a
two-line page is idempotently cleaned. -/
theorem clean_markdown_headers_idem_witness :
    Headers.processLine ("plain 2.1 text".toList) = "plain 2.1 text".toList :=
  (clean_markdown_headers_idem ("plain 2.1 text".toList)).2.2
    ("plain 2.1 text".toList) (by decide) (by decide)

/-- C6: `normalize_unicode_text` is deterministic (it is a function of its
inputs) and idempotent in both modes: re-normalizing its own output is a
fixed point and reports `wasModified = false`.  `nfc` is the stdlib
`unicodedata.normalize('NFC', ·)`, assumed idempotent and to never
manufacture surrogate code points (standard Unicode facts); `nfd` is
arbitrary. -/
theorem normalize_unicode_text_idem (nfc nfd : List ℕ → List ℕ)
    (hidem : ∀ s, nfc (nfc s) = nfc s)
    (hsurr : ∀ s, UnicodeHandler.detect_surrogate_pairs s = false →
      UnicodeHandler.detect_surrogate_pairs (nfc s) = false)
    (text : List ℕ) (aggressive : Bool) :
    UnicodeHandler.normalize_unicode_text nfc nfd
        (UnicodeHandler.normalize_unicode_text nfc nfd text aggressive).1
        aggressive =
      ((UnicodeHandler.normalize_unicode_text nfc nfd text aggressive).1,
        false) := by
  have hr : UnicodeHandler.detect_surrogate_pairs
      ((UnicodeHandler.normalize_unicode_text nfc nfd text aggressive).1) =
        false :=
    UnicodeHandler.normalize_result_detect_false nfc nfd hsurr text aggressive
  have hfix : nfc ((UnicodeHandler.normalize_unicode_text nfc nfd text
      aggressive).1) =
      (UnicodeHandler.normalize_unicode_text nfc nfd text aggressive).1 := by
    by_cases h : UnicodeHandler.detect_surrogate_pairs text
    · rw [UnicodeHandler.normalize_slow nfc nfd h]
      have h3 := UnicodeHandler.detect_removalStage_false
        (UnicodeHandler.applyMathMapping (nfd text)) aggressive
      have h4 := hsurr _ h3
      rw [UnicodeHandler.finalGuard_of_detect_false h4]
      exact hidem _
    · rw [Bool.not_eq_true] at h
      rw [UnicodeHandler.normalize_fast nfc nfd h]
      exact hidem text
  rw [UnicodeHandler.normalize_fast nfc nfd hr, hfix]
  simp

set_option maxRecDepth 4000 in
/-- Witness for C6: with `nfc = nfd = id`, aggressively normalizing
`[U+D800, 'a']` yields `['a']`, and re-normalizing it is a fixed point with
`wasModified = false`. -/
theorem normalize_unicode_text_idem_witness :
    UnicodeHandler.normalize_unicode_text id id
        (UnicodeHandler.normalize_unicode_text id id [0xD800, 97] true).1
        true =
      ((UnicodeHandler.normalize_unicode_text id id [0xD800, 97] true).1,
        false)
  ∧ (UnicodeHandler.normalize_unicode_text id id [0xD800, 97] true).1 =
      [97] :=
  ⟨normalize_unicode_text_idem id id (fun _ => rfl) (fun _ h => h)
    [0xD800, 97] true, by decide⟩

/-- C7: for every input built from math-symbol lookup-table code points,
unpaired surrogates and ordinary safe (valid non-surrogate) code points,
the aggressive normalization result contains no unpaired surrogate —
`detect_surrogate_pairs` is false on it — and it is strictly UTF-8
encodable.  (`nfc` is assumed to never manufacture surrogates.) -/
theorem normalize_aggressive_encodable (nfc nfd : List ℕ → List ℕ)
    (hsurr : ∀ s, UnicodeHandler.detect_surrogate_pairs s = false →
      UnicodeHandler.detect_surrogate_pairs (nfc s) = false)
    (text : List ℕ)
    (hdom : ∀ c ∈ text, UnicodeHandler.mathSymbolKey c = true
      ∨ UnicodeHandler.isSurrogate c = true
      ∨ (c ≤ 0x10FFFF ∧ UnicodeHandler.isSurrogate c = false)) :
    UnicodeHandler.detect_surrogate_pairs
        ((UnicodeHandler.normalize_unicode_text nfc nfd text true).1) = false
  ∧ UnicodeHandler.utf8Encodable
        ((UnicodeHandler.normalize_unicode_text nfc nfd text true).1) =
      true := by
  have hr := UnicodeHandler.normalize_result_detect_false nfc nfd hsurr text
    true
  exact ⟨hr, UnicodeHandler.utf8Encodable_of_detect_false hr⟩

set_option maxRecDepth 4000 in
/-- Witness for C7: a bold `𝐀` (U+1D400), an unpaired surrogate and a plain
`'a'`, aggressively normalized with `nfc = nfd = id`, yield a surrogate-free,
strictly encodable result. -/
theorem normalize_aggressive_encodable_witness :
    UnicodeHandler.detect_surrogate_pairs
        ((UnicodeHandler.normalize_unicode_text id id [0x1D400, 0xD800, 97]
          true).1) = false
  ∧ UnicodeHandler.utf8Encodable
        ((UnicodeHandler.normalize_unicode_text id id [0x1D400, 0xD800, 97]
          true).1) = true :=
  normalize_aggressive_encodable id id (fun _ h => h) [0x1D400, 0xD800, 97]
    (by decide)

end PDFTranslate
